/-
Verification of `api_demo.py` (ANSS SIS web-service reporting tool).

The module is a command-line reporting tool: a generic paginated fetcher
(`send_request`) walks a multi-page JSON:API response accumulating primary
records and an "included" side table, and three report functions
(`get_logger_models`, `get_equipment`, `get_equipinstall`) validate their
inputs, call the fetcher once, flatten the records and write a CSV file.

Modelling conventions:
  * Python dicts are association lists with Python-dict update semantics
    (overwrite in place, append new keys at the end).
  * The remote HTTP service (an out-of-scope interface) is a function from
    the requested page number to the parsed response for that page; the
    bearer-token file read is part of that interface and is not modelled.
  * The unbounded `while True` fetch loop is given explicit fuel; every
    theorem about a terminating run supplies enough fuel.
  * Raised Python exceptions are explicit error values; the list of page
    numbers actually requested is threaded through as an observation so
    that statements about "requests issued" can be made.
-/
import Mathlib

set_option maxHeartbeats 1000000

/-! ## Python dict model -/

/-- A value stored in the filter-parameter dict: the code stores strings for
filters and an int for the page number. -/
inductive FPVal where
  | str (s : String)
  | num (n : Nat)
deriving DecidableEq, Repr

/-- The filter-parameter dict passed to `send_request` (caller-owned). -/
abbrev FilterParams := List (String × FPVal)

/-- A flattened output row: a Python dict from column name to string value. -/
abbrev Row := List (String × String)

/-- First-match association-list lookup (Python `d[k]` / `d.get(k)`;
the dicts built by this program never hold duplicate keys). -/
def alookup {β : Type} (d : List (String × β)) (k : String) : Option β :=
  match d with
  | [] => none
  | (k', v) :: rest => if k' = k then some v else alookup rest k

/-- Python `d[k] = v`: overwrite in place when the key exists, else append
at the end (the dicts of this program never hold duplicate keys). -/
def dictSet {β : Type} (d : List (String × β)) (k : String) (v : β) :
    List (String × β) :=
  match d with
  | [] => [(k, v)]
  | (k', v') :: rest =>
    if k' = k then (k, v) :: rest else (k', v') :: dictSet rest k v

/-- Python `d.update(u)` and `{**d, **u}`: set every binding of `u` in `d`. -/
def dictUpdate {β : Type} (d u : List (String × β)) : List (String × β) :=
  u.foldl (fun acc kv => dictSet acc kv.1 kv.2) d

/-! ## Response shape (JSON body of one page) -/

/-- One element of a page's `included` list: a side resource. -/
structure IncludedEntry (α : Type) where
  type : String
  id : String
  attributes : α
deriving DecidableEq, Repr

/-- The parsed JSON body of one page response, together with the HTTP status
outcome (`status_ok = false` makes `raise_for_status` raise `HTTPError`).
`data` is the list of primary resources, `pages` is
`meta.pagination.pages`. -/
structure Page (δ α : Type) where
  status_ok : Bool
  data : List δ
  included : Option (List (IncludedEntry α))
  pages : Nat
deriving DecidableEq, Repr

/-- The side table `incl_dict`: conceptually `{type: {id: attributes}}`.
Modelled as a list of bindings where the most recent write is at the head,
read through `inclLookup`; this realises exactly the mapping semantics of
the nested Python dicts (last write per (type, id) wins). -/
abbrev InclDict (α : Type) := List (String × String × α)

/-- `incl_dict[entry['type']][entry['id']] = entry['attributes']`. -/
def inclInsert {α : Type} (d : InclDict α) (t i : String) (a : α) : InclDict α :=
  (t, i, a) :: d

/-- `incl_dict[t][i]`: `none` models the `KeyError` raised when the id is
absent (the outer `defaultdict` level silently yields `{}` for a missing
type, so a missing type also ends in a `KeyError` on the id). -/
def inclLookup {α : Type} (d : InclDict α) (t i : String) : Option α :=
  match d with
  | [] => none
  | (t', i', a) :: rest =>
    if t' = t ∧ i' = i then some a else inclLookup rest t i

/-- Lines 260-263: `included = res.get('included', None); if included: for
entry in included: incl_dict[entry['type']][entry['id']] = entry['attributes']`.
A `None` or empty `included` (both falsy) contributes nothing. -/
def processIncluded {α : Type} (incl : InclDict α)
    (included : Option (List (IncludedEntry α))) : InclDict α :=
  match included with
  | none => incl
  | some entries =>
    if entries.isEmpty then incl
    else entries.foldl (fun d e => inclInsert d e.type e.id e.attributes) incl

/-! ## Configuration (module-level `config` dict, lines 38-43) -/

/-- Per-mode configuration. -/
structure ModeConfig where
  baseurl : String
  tokenfile : String
deriving DecidableEq, Repr

/-- The module-level `config` dict: keys `'prod'` and `'test'`. -/
def config : List (String × ModeConfig) :=
  [("prod", ⟨"https://anss-sis.scsn.org/sis/api", "sis_prod.token"⟩),
   ("test", ⟨"https://anss-sis.scsn.org/sistest/api", "sis_test.token"⟩)]

/-! ## The paged fetcher `send_request` (lines 233-280) -/

/-- Read the current page number from the filter params
(`filterparams['page[number]']`, required to be an int for `+= 1`). -/
def getPageNum (fp : FilterParams) : Option Nat :=
  match alookup fp "page[number]" with
  | some (.num n) => some n
  | _ => none

/-- Write the page-number field (`filterparams['page[number]'] = v`). -/
def setPageNum (fp : FilterParams) (v : Nat) : FilterParams :=
  dictSet fp "page[number]" (.num v)

/-- An exception escaping the fetch loop. -/
inductive FetchError where
  | keyError
  | httpError (page : Nat)
deriving DecidableEq, Repr

/-- The observable result of a call of `send_request`:
`noneRes` is the bare `return` (value `None`) for an invalid mode,
`ok` carries `(all_data, incl_dict)` plus the final state of the
caller-owned `filterparams`, `raised` is a propagated exception, and
`outOfFuel` marks a run longer than the supplied fuel (model artifact). -/
inductive SRResult (δ α : Type) where
  | noneRes
  | ok (all_data : List δ) (incl_dict : InclDict α) (fp : FilterParams)
  | raised (e : FetchError)
  | outOfFuel
deriving DecidableEq, Repr

/-- Whether the result is a normal `(all_data, incl_dict)` return. -/
def SRResult.isOk {δ α : Type} : SRResult δ α → Bool
  | .ok _ _ _ => true
  | _ => false

/-- The `while True` loop of `send_request` (lines 254-270), with fuel.
Each iteration: send a GET carrying the current page number (recorded in
the returned trace), `raise_for_status`, extend `all_data` with the page's
`data`, fold `included` into `incl_dict`, read `meta.pagination.pages`,
increment `filterparams['page[number]']`, and stop when the incremented
page number exceeds the page count.  Returns the result together with the
list of page numbers requested, in request order. -/
def fetchLoop {δ α : Type} (server : Nat → Page δ α) :
    Nat → FilterParams → List δ → InclDict α → List Nat →
    SRResult δ α × List Nat
  | 0, _, _, _, trace => (.outOfFuel, trace)
  | fuel + 1, fp, all_data, incl, trace =>
    match getPageNum fp with
    | none => (.raised .keyError, trace)
    | some pn =>
      let res := server pn
      let trace' := trace ++ [pn]
      if res.status_ok = false then (.raised (.httpError pn), trace')
      else
        let all_data' := all_data ++ res.data
        let incl' := processIncluded incl res.included
        let fp' := setPageNum fp (pn + 1)
        if res.pages < pn + 1 then (.ok all_data' incl' fp', trace')
        else fetchLoop server fuel fp' all_data' incl' trace'

/-- `send_request` (lines 233-280).  An unknown mode prints an error and
returns `None` before any request; otherwise the loop runs (the base URL,
bearer token and endpoint are part of the abstract `server` interface). -/
def send_request {δ α : Type} (server : Nat → Page δ α) (mode : String)
    (filterparams : FilterParams) (fuel : Nat) : SRResult δ α × List Nat :=
  if (alookup config mode).isNone then (.noneRes, [])
  else fetchLoop server fuel filterparams [] [] []

/-! ## CSV writer model

Models Python's `csv.DictWriter(csvfile, fieldnames, extrasaction='ignore')`
as used by all three report functions: `writerow` emits, for every declared
field name in order, the row dict's value for that key, or the default
`restval` `''` when the key is absent; keys of the row dict outside
`fieldnames` are silently ignored.  `writeheader` emits `fieldnames`. -/

/-- One `writer.writerow(row)` call: project the row dict onto the declared
field names (missing key -> `''`, extra keys dropped). -/
def dictWriterRow (fieldnames : List String) (row : Row) : List String :=
  fieldnames.map (fun k => (alookup row k).getD "")

/-- `writeheader()` followed by `writerow` for every row: the full CSV
table, one cell list per line. -/
def writeCSV (fieldnames : List String) (rows : List Row) :
    List (List String) :=
  fieldnames :: rows.map (dictWriterRow fieldnames)

/-- Reading a CSV table back: pair each data line's cells with the header,
and keep, per line, the list of column names the line has values for. -/
def readCSVColumns (table : List (List String)) : List (List String) :=
  match table with
  | [] => []
  | header :: rows => rows.map (fun row => (header.zip row).map Prod.fst)

/-- The observable outcome of a report function: `noFile` is an early
return with no CSV file created, `wrote` carries the written CSV table,
`raised` is an uncaught exception escaping the function (also before any
file is opened), `fuelOut` marks fuel exhaustion (model artifact). -/
inductive ReportOutcome where
  | noFile
  | wrote (table : List (List String))
  | raised
  | fuelOut
deriving DecidableEq, Repr

/-! ## Report 1: `get_logger_models` (lines 57-80) -/

/-- A primary resource of the logger-model report; only its `attributes`
dict is used (written out directly as a row). -/
structure LoggerRecord where
  attributes : Row
deriving DecidableEq, Repr

/-- The fixed column set of the logger-model report (line 75). -/
def loggerFieldnames : List String :=
  ["modelname", "manufacturer", "family", "description", "notes",
   "createdby", "datecreated", "modifiedby", "datemodified"]

/-- `get_logger_models(mode, outfpathname)`.  No `try` around the
`send_request` call: a raised exception propagates, and on an invalid mode
the returned `None` fails tuple unpacking with a `TypeError` before the
`all_data is None` guard can run (so that guard handles neither case). -/
def get_logger_models (server : Nat → Page LoggerRecord Row) (fuel : Nat)
    (mode outfpathname : String) : ReportOutcome × List Nat :=
  if outfpathname = "" then (.noFile, [])
  else
    let filterparams : FilterParams :=
      [("category", .str "LOGGER"), ("sort", .str "modelname"),
       ("page[number]", .num 1)]
    match send_request server mode filterparams fuel with
    | (.noneRes, t) => (.raised, t)
    | (.raised _, t) => (.raised, t)
    | (.outOfFuel, t) => (.fuelOut, t)
    | (.ok all_data _ _, t) =>
      (.wrote (writeCSV loggerFieldnames (all_data.map (·.attributes))), t)

/-! ## Report 2: `get_equipment` (lines 82-159) -/

/-- One entry of `attributes['equipepochs']`: `offdate` may be JSON null
(`None`), the three projected fields are strings. -/
structure EquipEpoch where
  offdate : Option String
  operatorcode : String
  ownercode : String
  inventory : String
deriving DecidableEq, Repr

/-- One entry of `attributes['equipsettings']`. -/
structure EquipSetting where
  keyname : String
  settingvalue : String
deriving DecidableEq, Repr

/-- The attributes of an equipment primary resource, with the fields the
code reads.  `equipips` holds, per IP entry, the result of
`ip.get('ipv4address', None)`. -/
structure EquipAttrs where
  serialnumber : String
  sourcetemplate : String
  notes : String
  createdby : String
  datecreated : String
  modifiedby : String
  datemodified : String
  equipepochs : List EquipEpoch
  equipips : List (Option String)
  equipsettings : List EquipSetting
deriving DecidableEq, Repr

/-- A `{'type': ..., 'id': ...}` relationship reference. -/
structure RelRef where
  type : String
  id : String
deriving DecidableEq, Repr

/-- An equipment primary resource: its attributes and the
`relationships.equipmodel.data` reference. -/
structure EquipRecord where
  attributes : EquipAttrs
  equipmodel : RelRef
deriving DecidableEq, Repr

/-- `{k: d[k] for k in keys}` over a side resource's attribute dict;
a missing key raises `KeyError`. -/
def projectKeys (d : List (String × String)) (keys : List String) :
    Except String Row :=
  match keys with
  | [] => Except.ok []
  | k :: rest =>
    match alookup d k with
    | none => Except.error "KeyError"
    | some v =>
      match projectKeys d rest with
      | .error e => Except.error e
      | .ok r => Except.ok ((k, v) :: r)

/-- The fixed column set of the equipment report (line 154). -/
def equipFieldnames : List String :=
  ["category", "manufacturer", "modelname", "serialnumber", "operatorcode",
   "ownercode", "inventory", "ipv4addresses", "sim-id", "sourcetemplate",
   "notes", "createdby", "datecreated", "modifiedby", "datemodified"]

/-- The filter params built by `get_equipment` (lines 96-100): the dict
literal, then `filterparams['inventory'] = ...` only when
`inventory_states` is non-empty (truthy). -/
def equipmentFilterparams (modelnames operatorcodes inventory_states :
    List String) : FilterParams :=
  let fp : FilterParams :=
    [("modelname", .str (String.intercalate "," modelnames)),
     ("operatorcode", .str (String.intercalate "," operatorcodes)),
     ("page[number]", .num 1)]
  if inventory_states.isEmpty then fp
  else dictSet fp "inventory" (.str (String.intercalate "," inventory_states))

/-- The epoch loop of lines 132-135: for each epoch whose `offdate` is
`None`, overwrite the row's operatorcode/ownercode/inventory fields. -/
def epochLoop (equip : Row) (epochs : List EquipEpoch) : Row :=
  epochs.foldl (fun eq ee =>
    if ee.offdate = none then
      dictUpdate eq [("operatorcode", ee.operatorcode),
                     ("ownercode", ee.ownercode),
                     ("inventory", ee.inventory)]
    else eq) equip

/-- The settings loop of lines 145-147: keep the `settingvalue` of each
entry whose `keyname` is `'SIM-ID'` under the `'sim-id'` key. -/
def settingsLoop (equip : Row) (settings : List EquipSetting) : Row :=
  settings.foldl (fun eq s =>
    if s.keyname = "SIM-ID" then dictSet eq "sim-id" s.settingvalue
    else eq) equip

/-- Lines 139-140: `ips = [ip.get('ipv4address', None) for ip in ...]`
then `', '.join(ips) if ips else ''`; joining a list holding a `None`
raises a `TypeError`. -/
def joinIps (ips : List (Option String)) : Except String String :=
  if ips.isEmpty then Except.ok ""
  else
    match ips.mapM id with
    | some l => Except.ok (String.intercalate ", " l)
    | none => Except.error "TypeError"

/-- The body of the per-record loop of `get_equipment` (lines 117-150):
assemble one flattened row.  Errors model the uncaught exceptions: a
missing model in `incl_dict` or a missing model key (`KeyError`), and
`', '.join` over a list holding `None` (`TypeError`). -/
def assembleEquipRow (incl_dict : InclDict (List (String × String)))
    (r : EquipRecord) : Except String Row :=
  let attribs := r.attributes
  let equip : Row :=
    [("serialnumber", attribs.serialnumber),
     ("sourcetemplate", attribs.sourcetemplate),
     ("notes", attribs.notes),
     ("createdby", attribs.createdby),
     ("datecreated", attribs.datecreated),
     ("modifiedby", attribs.modifiedby),
     ("datemodified", attribs.datemodified)]
  match inclLookup incl_dict r.equipmodel.type r.equipmodel.id with
  | none => Except.error "KeyError"
  | some model =>
    match projectKeys model ["category", "manufacturer", "modelname"] with
    | .error e => Except.error e
    | .ok modeldict =>
      let equip := dictUpdate equip modeldict
      let equip := epochLoop equip attribs.equipepochs
      match joinIps attribs.equipips with
      | .error e => Except.error e
      | .ok ipval =>
        let equip := dictSet equip "ipv4addresses" ipval
        Except.ok (settingsLoop equip attribs.equipsettings)

/-- `get_equipment(mode, outfpathname, modelnames, operatorcodes,
inventory_states=[])`.  Validation returns before any request; the `try`
around `send_request` swallows every exception (including the `TypeError`
from unpacking `None` on a bad mode) into a silent return; after a
successful fetch the `all_data is None` guard can never fire (the fetch
returned a list); row assembly runs outside the `try`, so its errors
propagate — still before the output file is opened. -/
def get_equipment (server : Nat → Page EquipRecord (List (String × String)))
    (fuel : Nat) (mode outfpathname : String)
    (modelnames operatorcodes inventory_states : List String) :
    ReportOutcome × List Nat :=
  if outfpathname = "" then (.noFile, [])
  else if modelnames = [] ∧ operatorcodes = [] then (.noFile, [])
  else
    let filterparams :=
      equipmentFilterparams modelnames operatorcodes inventory_states
    match send_request server mode filterparams fuel with
    | (.noneRes, t) => (.noFile, t)
    | (.raised _, t) => (.noFile, t)
    | (.outOfFuel, t) => (.fuelOut, t)
    | (.ok all_data incl_dict _, t) =>
      match all_data.mapM (assembleEquipRow incl_dict) with
      | .error _ => (.raised, t)
      | .ok equips => (.wrote (writeCSV equipFieldnames equips), t)

/-! ## Report 3: `get_equipinstall` (lines 161-231) -/

/-- An equipment-installation primary resource: the one projected
attribute (`ondate`) and its two relationship references. -/
structure EquipinstallRecord where
  ondate : String
  equipment : RelRef
  siteepoch : RelRef
deriving DecidableEq, Repr

/-- The fixed column set of the installation report (line 226). -/
def equipinstallFieldnames : List String :=
  ["modelname", "serialnumber", "netcode", "lookupcode"]

/-- The filter-construction block of lines 176-185: start from the
category filter with sort `'category'`, overriding the sort with
`'netcode'` when net codes are supplied and then with `'lookupcode'`
when lookup codes are supplied; finally merge in `isactive`/page number
and the chosen sort option (`{**a, **b}` is a dict update). -/
def equipinstallFilterparams (categorys netcodes lookupcodes :
    List String) : FilterParams :=
  let proto_filter : FilterParams :=
    [("category", .str (String.intercalate "," categorys))]
  let sort_opt : FilterParams := [("sort", .str "category")]
  let pf1 := if netcodes.isEmpty then proto_filter
    else dictUpdate proto_filter
      [("netcode", .str (String.intercalate "," netcodes))]
  let so1 := if netcodes.isEmpty then sort_opt
    else [("sort", .str "netcode")]
  let pf2 := if lookupcodes.isEmpty then pf1
    else dictUpdate pf1
      [("lookupcode", .str (String.intercalate "," lookupcodes))]
  let so2 := if lookupcodes.isEmpty then so1
    else [("sort", .str "lookupcode")]
  let pf3 := dictUpdate pf2 [("isactive", .str "y"), ("page[number]", .num 1)]
  dictUpdate pf3 so2

/-- The body of the per-record loop of `get_equipinstall` (lines 202-222):
project `ondate`, join the equipment side resource and the site-epoch side
resource via `incl_dict`. -/
def assembleEquipinstallRow (incl_dict : InclDict (List (String × String)))
    (r : EquipinstallRecord) : Except String Row :=
  let equip : Row := [("ondate", r.ondate)]
  match inclLookup incl_dict r.equipment.type r.equipment.id with
  | none => Except.error "KeyError"
  | some equipm =>
    match projectKeys equipm ["modelname", "serialnumber", "category"] with
    | .error e => Except.error e
    | .ok equipdict =>
      let equip := dictUpdate equip equipdict
      match inclLookup incl_dict r.siteepoch.type r.siteepoch.id with
      | none => Except.error "KeyError"
      | some sepoch =>
        match projectKeys sepoch ["netcode", "lookupcode"] with
        | .error e => Except.error e
        | .ok sedict => Except.ok (dictUpdate equip sedict)

/-- `get_equipinstall(mode, outfpathname, categorys, netcodes,
lookupcodes=[])`: same control-flow shape as `get_equipment` (validation,
`try` around `send_request`, assembly, CSV). -/
def get_equipinstall
    (server : Nat → Page EquipinstallRecord (List (String × String)))
    (fuel : Nat) (mode outfpathname : String)
    (categorys netcodes lookupcodes : List String) :
    ReportOutcome × List Nat :=
  if outfpathname = "" then (.noFile, [])
  else if categorys = [] then (.noFile, [])
  else
    let filterparams := equipinstallFilterparams categorys netcodes lookupcodes
    match send_request server mode filterparams fuel with
    | (.noneRes, t) => (.noFile, t)
    | (.raised _, t) => (.noFile, t)
    | (.outOfFuel, t) => (.fuelOut, t)
    | (.ok all_data incl_dict _, t) =>
      match all_data.mapM (assembleEquipinstallRow incl_dict) with
      | .error _ => (.raised, t)
      | .ok equips => (.wrote (writeCSV equipinstallFieldnames equips), t)

/-! ## Observation functions for the statements

Per-page accumulations written as standalone recursions so that statements
can speak about "the pages fetched" directly; `lastEntry` follows the
spec's words for the side table ("the last occurrence across pages wins")
and is compared with the implementation's `incl_dict`. -/

/-- The page numbers `s, s+1, ..., s+k-1` (a request trace of `k` pages
starting at page `s`). -/
def pagesFrom (s : Nat) : Nat → List Nat
  | 0 => []
  | k + 1 => s :: pagesFrom (s + 1) k

/-- Concatenation, in page order, of the `data` lists of `k` pages
starting at page `s`. -/
def concatData {δ α : Type} (server : Nat → Page δ α) (s : Nat) :
    Nat → List δ
  | 0 => []
  | k + 1 => (server s).data ++ concatData server (s + 1) k

/-- The sum of the per-page `data` lengths over `k` pages from page `s`. -/
def sumDataLen {δ α : Type} (server : Nat → Page δ α) (s : Nat) : Nat → Nat
  | 0 => 0
  | k + 1 => (server s).data.length + sumDataLen server (s + 1) k

/-- Concatenation, in page order, of the `included` lists of `k` pages
starting at page `s` (a missing `included` contributes nothing). -/
def allIncluded {δ α : Type} (server : Nat → Page δ α) (s : Nat) :
    Nat → List (IncludedEntry α)
  | 0 => []
  | k + 1 => ((server s).included.getD []) ++ allIncluded server (s + 1) k

/-- Spec-side reading of the side table: the attributes of the last entry
in `entries` carrying the given (type, id), if any. -/
def lastEntry {α : Type} (entries : List (IncludedEntry α)) (t i : String) :
    Option α :=
  entries.foldl
    (fun acc e => if e.type = t ∧ e.id = i then some e.attributes else acc)
    none

/-- Folding a list of included entries into the side table, in order
(the per-entry body of `processIncluded`). -/
def insertEntries {α : Type} (d : InclDict α)
    (entries : List (IncludedEntry α)) : InclDict α :=
  entries.foldl (fun d' e => inclInsert d' e.type e.id e.attributes) d

/-- The three report types of the tool. -/
inductive ReportType where
  | loggerModels
  | equipment
  | equipinstall
deriving DecidableEq, Repr

/-- The fixed, declared CSV column set of each report type. -/
def reportFieldnames : ReportType → List String
  | .loggerModels => loggerFieldnames
  | .equipment => equipFieldnames
  | .equipinstall => equipinstallFieldnames

/-- The first-some choice: the left option when present, else the default. -/
def orDefault {γ : Type} (o d : Option γ) : Option γ :=
  match o with
  | some a => some a
  | none => d

/-- The last binding of a key in a dict-update argument list, if any
(later bindings win, as in a Python dict update). -/
def lastBinding {β : Type} (u : List (String × β)) (k : String) : Option β :=
  u.foldl (fun acc kv => if kv.1 = k then some kv.2 else acc) none

/-- The last epoch in list order whose `offdate` is `None`, if any: the
entry whose fields survive the epoch loop. -/
def lastActive (epochs : List EquipEpoch) : Option EquipEpoch :=
  epochs.foldl (fun acc ee => if ee.offdate = none then some ee else acc) none

/-! ## Demo fixtures used by the witness instances -/

/-- Filter params holding only a starting page number. -/
def fpDemo : FilterParams := [("page[number]", .num 1)]

/-- A two-page demo server whose second page repeats the (type, id) of a
side entry of the first page with different attributes. -/
def serverTwoPages : Nat → Page Nat String := fun i =>
  match i with
  | 1 => ⟨true, [10, 11], some [⟨"t", "a", "x"⟩, ⟨"t", "b", "y"⟩], 2⟩
  | 2 => ⟨true, [12], some [⟨"t", "a", "z"⟩], 2⟩
  | _ => ⟨true, [], none, 0⟩

/-- A server reporting a total of three pages on every response. -/
def serverThreePages : Nat → Page Nat String := fun i => ⟨true, [i], none, 3⟩

/-- An equipment server answering an HTTP error on page 2 of 3. -/
def serverFailPage2 : Nat → Page EquipRecord (List (String × String)) :=
  fun i => if i = 2 then ⟨false, [], none, 3⟩ else ⟨true, [], none, 3⟩

/-- A trivial one-page server. -/
def serverOnePage : Nat → Page Nat String := fun _ => ⟨true, [], none, 1⟩

/-- Filter params with one filter key besides the page number. -/
def fpFrame : FilterParams := [("modelname", .str "A"), ("page[number]", .num 1)]

/-- An equipment server answering one empty page. -/
def serverEmptyPage : Nat → Page EquipRecord (List (String × String)) :=
  fun _ => ⟨true, [], none, 1⟩

/-- A logger-model server answering one empty page. -/
def loggerServerDemo : Nat → Page LoggerRecord Row :=
  fun _ => ⟨true, [], none, 1⟩

/-- An installation server answering one empty page. -/
def equipinstallServerDemo :
    Nat → Page EquipinstallRecord (List (String × String)) :=
  fun _ => ⟨true, [], none, 1⟩

/-- Attributes of a demo equipment model, as found in `incl_dict`. -/
def modelAttrsDemo : List (String × String) :=
  [("category", "LOGGER"), ("manufacturer", "ACME"), ("modelname", "M1")]

/-- A demo side table holding one equipment model. -/
def inclDemo : InclDict (List (String × String)) :=
  [("equipment-models", "7", modelAttrsDemo)]

/-- The single currently active epoch of `recordOneEpoch`. -/
def epochActive : EquipEpoch := ⟨none, "OP", "OWN", "OPERATIONAL"⟩

/-- An equipment record with exactly one epoch with an absent end-date
(one closed epoch before it). -/
def recordOneEpoch : EquipRecord :=
  ⟨⟨"SN1", "T", "", "u", "d1", "u2", "d2",
    [⟨some "2020-01-01", "OLD", "OLDOWN", "RETIRED"⟩, epochActive],
    [], []⟩, ⟨"equipment-models", "7"⟩⟩

/-- The row assembled from `recordOneEpoch`. -/
def rowOneEpoch : Row :=
  [("serialnumber", "SN1"), ("sourcetemplate", "T"), ("notes", ""),
   ("createdby", "u"), ("datecreated", "d1"), ("modifiedby", "u2"),
   ("datemodified", "d2"), ("category", "LOGGER"),
   ("manufacturer", "ACME"), ("modelname", "M1"), ("operatorcode", "OP"),
   ("ownercode", "OWN"), ("inventory", "OPERATIONAL"),
   ("ipv4addresses", "")]

/-- An equipment record with two epochs with an absent end-date. -/
def recordTwoActive : EquipRecord :=
  ⟨⟨"SN2", "T", "", "u", "d1", "u2", "d2",
    [⟨none, "A1", "B1", "C1"⟩, ⟨none, "A2", "B2", "C2"⟩],
    [], []⟩, ⟨"equipment-models", "7"⟩⟩

/-- The row assembled from `recordTwoActive`: the second (last) active
epoch's fields survive. -/
def rowTwoActive : Row :=
  [("serialnumber", "SN2"), ("sourcetemplate", "T"), ("notes", ""),
   ("createdby", "u"), ("datecreated", "d1"), ("modifiedby", "u2"),
   ("datemodified", "d2"), ("category", "LOGGER"),
   ("manufacturer", "ACME"), ("modelname", "M1"), ("operatorcode", "A2"),
   ("ownercode", "B2"), ("inventory", "C2"), ("ipv4addresses", "")]

/-- An equipment record with no epoch with an absent end-date. -/
def recordNoActive : EquipRecord :=
  ⟨⟨"SN3", "T", "", "u", "d1", "u2", "d2",
    [⟨some "2019-05-05", "X", "Y", "Z"⟩],
    [], []⟩, ⟨"equipment-models", "7"⟩⟩

/-- The row assembled from `recordNoActive`: no epoch fields at all. -/
def rowNoActive : Row :=
  [("serialnumber", "SN3"), ("sourcetemplate", "T"), ("notes", ""),
   ("createdby", "u"), ("datecreated", "d1"), ("modifiedby", "u2"),
   ("datemodified", "d2"), ("category", "LOGGER"),
   ("manufacturer", "ACME"), ("modelname", "M1"), ("ipv4addresses", "")]

/-! ## Dict lemmas -/

theorem orDefault_none_right {γ : Type} (o : Option γ) :
    orDefault o none = o := by
  cases o <;> rfl

theorem alookup_dictSet_eq {β : Type} (d : List (String × β)) (k : String)
    (v : β) : alookup (dictSet d k v) k = some v := by
  induction d with
  | nil => simp [dictSet, alookup]
  | cons kv rest ih =>
    by_cases h : kv.1 = k
    · simp [dictSet, h, alookup]
    · simp [dictSet, h, alookup, ih]

theorem alookup_dictSet_ne {β : Type} (d : List (String × β))
    (k k' : String) (v : β) (hne : k' ≠ k) :
    alookup (dictSet d k v) k' = alookup d k' := by
  have hkk : ¬ k = k' := fun h => hne (Eq.symm h)
  induction d with
  | nil => simp [dictSet, alookup, hkk]
  | cons kv rest ih =>
    by_cases h : kv.1 = k
    · have h2 : ¬ kv.1 = k' := by
        rw [h]
        exact hkk
      simp [dictSet, h, alookup, hkk, h2]
    · by_cases h' : kv.1 = k'
      · simp [dictSet, h, alookup, h', hne]
      · simp [dictSet, h, alookup, h', ih]

theorem keys_dictSet {β : Type} (d : List (String × β)) (k : String)
    (v w : β) (hmem : alookup d k = some w) :
    (dictSet d k v).map Prod.fst = d.map Prod.fst := by
  induction d with
  | nil => simp [alookup] at hmem
  | cons kv rest ih =>
    by_cases h : kv.1 = k
    · simp [dictSet, h]
    · have hmem' : alookup rest k = some w := by
        have hne : ¬ kv.1 = k := h
        simpa [alookup, hne] using hmem
      simp [dictSet, h, ih hmem']

theorem dictSet_dictSet {β : Type} (d : List (String × β)) (k : String)
    (a b : β) : dictSet (dictSet d k a) k b = dictSet d k b := by
  induction d with
  | nil => simp [dictSet]
  | cons kv rest ih =>
    by_cases h : kv.1 = k
    · simp [dictSet, h]
    · simp [dictSet, h, ih]

theorem foldl_lastBinding {β : Type} (k : String) :
    ∀ (u : List (String × β)) (acc : Option β),
      u.foldl (fun a p => if p.1 = k then some p.2 else a) acc =
        orDefault (lastBinding u k) acc := by
  intro u
  induction u with
  | nil => intro acc; cases acc <;> rfl
  | cons q qs ihq =>
    intro acc
    show qs.foldl _ (if q.1 = k then some q.2 else acc) = _
    rw [ihq, show lastBinding (q :: qs) k =
      qs.foldl (fun a p => if p.1 = k then some p.2 else a)
        (if q.1 = k then some q.2 else none) from rfl, ihq]
    by_cases hq : q.1 = k
    · simp only [hq, if_pos]
      cases lastBinding qs k <;> rfl
    · simp only [hq, if_neg, ite_false]
      cases lastBinding qs k <;> rfl

theorem alookup_dictUpdate {β : Type} (u d : List (String × β))
    (k : String) :
    alookup (dictUpdate d u) k = orDefault (lastBinding u k) (alookup d k) := by
  induction u generalizing d with
  | nil => rfl
  | cons kv rest ih =>
    show alookup (dictUpdate (dictSet d kv.1 kv.2) rest) k = _
    rw [ih]
    rw [show lastBinding (kv :: rest) k =
      rest.foldl (fun a p => if p.1 = k then some p.2 else a)
        (if kv.1 = k then some kv.2 else none) from rfl, foldl_lastBinding]
    by_cases hk : kv.1 = k
    · subst hk
      rw [alookup_dictSet_eq]
      simp only [if_pos rfl]
      cases lastBinding rest kv.1 <;> rfl
    · rw [alookup_dictSet_ne d kv.1 k kv.2 (fun h => hk (Eq.symm h))]
      simp only [hk, ite_false]
      rw [orDefault_none_right]

theorem getPageNum_some {fp : FilterParams} {pn : Nat}
    (h : getPageNum fp = some pn) :
    alookup fp "page[number]" = some (.num pn) := by
  unfold getPageNum at h
  cases hc : alookup fp "page[number]" with
  | none => rw [hc] at h; exact absurd h (by simp)
  | some v =>
    rw [hc] at h
    cases v with
    | str s => exact absurd h (by simp)
    | num n =>
      have hn : n = pn := by simpa using h
      rw [hn]

theorem getPageNum_setPageNum (fp : FilterParams) (v : Nat) :
    getPageNum (setPageNum fp v) = some v := by
  unfold getPageNum setPageNum
  rw [alookup_dictSet_eq]

theorem setPageNum_setPageNum (fp : FilterParams) (a b : Nat) :
    setPageNum (setPageNum fp a) b = setPageNum fp b := by
  unfold setPageNum
  exact dictSet_dictSet fp "page[number]" (.num a) (.num b)

theorem keys_setPageNum {fp : FilterParams} {pn : Nat}
    (h : getPageNum fp = some pn) (v : Nat) :
    (setPageNum fp v).map Prod.fst = fp.map Prod.fst :=
  keys_dictSet fp "page[number]" (.num v) (.num pn) (getPageNum_some h)

theorem alookup_setPageNum_ne (fp : FilterParams) (v : Nat) (k : String)
    (hne : k ≠ "page[number]") :
    alookup (setPageNum fp v) k = alookup fp k :=
  alookup_dictSet_ne fp "page[number]" k (.num v) hne

/-! ## Epoch-loop and settings-loop lemmas -/

theorem foldl_lastActive :
    ∀ (epochs : List EquipEpoch) (acc : Option EquipEpoch),
      epochs.foldl (fun a ee => if ee.offdate = none then some ee else a)
          acc =
        orDefault (lastActive epochs) acc := by
  intro epochs
  induction epochs with
  | nil => intro acc; cases acc <;> rfl
  | cons ee rest ih =>
    intro acc
    show rest.foldl _ (if ee.offdate = none then some ee else acc) = _
    rw [ih, show lastActive (ee :: rest) =
      rest.foldl (fun a e => if e.offdate = none then some e else a)
        (if ee.offdate = none then some ee else none) from rfl, ih]
    by_cases hq : ee.offdate = none
    · simp only [hq, if_pos]
      cases lastActive rest <;> rfl
    · simp only [hq, ite_false]
      cases lastActive rest <;> rfl

theorem lastActive_of_filter_nil {epochs : List EquipEpoch}
    (h : epochs.filter (fun ee => ee.offdate = none) = []) :
    lastActive epochs = none := by
  induction epochs with
  | nil => rfl
  | cons ee rest ih =>
    by_cases hq : ee.offdate = none
    · exact absurd h (by simp [List.filter_cons, hq])
    · have h' : rest.filter (fun ee => ee.offdate = none) = [] := by
        simpa [List.filter_cons, hq] using h
      show rest.foldl _ (if ee.offdate = none then some ee else none) = none
      simpa [lastActive, hq] using ih h'

theorem lastActive_of_filter_concat {epochs l : List EquipEpoch}
    {e : EquipEpoch}
    (h : epochs.filter (fun ee => ee.offdate = none) = l ++ [e]) :
    lastActive epochs = some e := by
  induction epochs generalizing l with
  | nil => exact absurd h (by simp)
  | cons ee rest ih =>
    show rest.foldl _ (if ee.offdate = none then some ee else none) = some e
    by_cases hq : ee.offdate = none
    · rw [if_pos hq, foldl_lastActive]
      have hcons : ee :: rest.filter (fun x => x.offdate = none) =
          l ++ [e] := by
        rw [← h, List.filter_cons]
        simp [hq]
      cases l with
      | nil =>
        rw [List.nil_append] at hcons
        injection hcons with h1 h2
        rw [lastActive_of_filter_nil h2, h1]
        rfl
      | cons x xs =>
        rw [List.cons_append] at hcons
        injection hcons with h1 h2
        rw [ih h2]
        rfl
    · rw [if_neg hq]
      have h' : rest.filter (fun x => x.offdate = none) = l ++ [e] := by
        rw [← h, List.filter_cons]
        simp [hq]
      exact ih h'

theorem lastBinding_of_not_mem {β : Type} (u : List (String × β))
    (k : String) (h : k ∉ u.map Prod.fst) : lastBinding u k = none := by
  induction u with
  | nil => rfl
  | cons kv rest ih =>
    have h1 : ¬ kv.1 = k := by
      intro hk
      exact h (by simp [hk])
    have h2 : k ∉ rest.map Prod.fst := by
      intro hk
      exact h (by simp [hk])
    show rest.foldl _ (if kv.1 = k then some kv.2 else none) = none
    simpa [lastBinding, h1] using ih h2

theorem projectKeys_keys {d : List (String × String)} :
    ∀ {keys : List String} {r : Row}, projectKeys d keys = .ok r →
      r.map Prod.fst = keys := by
  intro keys
  induction keys with
  | nil =>
    intro r h
    have : r = [] := by
      simpa [projectKeys] using h
    simp [this]
  | cons k rest ih =>
    intro r h
    unfold projectKeys at h
    cases hv : alookup d k with
    | none => rw [hv] at h; exact absurd h (by simp)
    | some v =>
      rw [hv] at h
      cases hp : projectKeys d rest with
      | error e => rw [hp] at h; exact absurd h (by simp)
      | ok r' =>
        rw [hp] at h
        have hr : r = (k, v) :: r' := by
          have := h
          simp at this
          exact this.symm
        rw [hr]
        simp [ih hp]

theorem epochLoop_lookup (epochs : List EquipEpoch) :
    ∀ equip : Row,
      (alookup (epochLoop equip epochs) "operatorcode" =
        match lastActive epochs with
        | some e => some e.operatorcode
        | none => alookup equip "operatorcode") ∧
      (alookup (epochLoop equip epochs) "ownercode" =
        match lastActive epochs with
        | some e => some e.ownercode
        | none => alookup equip "ownercode") ∧
      (alookup (epochLoop equip epochs) "inventory" =
        match lastActive epochs with
        | some e => some e.inventory
        | none => alookup equip "inventory") := by
  induction epochs with
  | nil => intro equip; exact ⟨rfl, rfl, rfl⟩
  | cons ee rest ih =>
    intro equip
    have hla : lastActive (ee :: rest) =
        orDefault (lastActive rest)
          (if ee.offdate = none then some ee else none) := by
      show rest.foldl _ (if ee.offdate = none then some ee else none) = _
      rw [foldl_lastActive]
    have hloop : epochLoop equip (ee :: rest) =
        epochLoop (if ee.offdate = none then
          dictUpdate equip [("operatorcode", ee.operatorcode),
            ("ownercode", ee.ownercode), ("inventory", ee.inventory)]
          else equip) rest := rfl
    rw [hloop, hla]
    by_cases hq : ee.offdate = none
    · rw [if_pos hq, if_pos hq]
      obtain ⟨ih1, ih2, ih3⟩ := ih (dictUpdate equip
        [("operatorcode", ee.operatorcode), ("ownercode", ee.ownercode),
         ("inventory", ee.inventory)])
      refine ⟨?_, ?_, ?_⟩ <;>
        [rw [ih1]; rw [ih2]; rw [ih3]] <;>
        cases lastActive rest <;>
        simp [alookup_dictUpdate, lastBinding, orDefault]
    · rw [if_neg hq, if_neg hq]
      obtain ⟨ih1, ih2, ih3⟩ := ih equip
      refine ⟨?_, ?_, ?_⟩ <;>
        [rw [ih1]; rw [ih2]; rw [ih3]] <;>
        cases lastActive rest <;> rfl

theorem settingsLoop_lookup_ne (settings : List EquipSetting) :
    ∀ (equip : Row) (k : String), k ≠ "sim-id" →
      alookup (settingsLoop equip settings) k = alookup equip k := by
  induction settings with
  | nil => intro equip k _; rfl
  | cons s rest ih =>
    intro equip k hk
    show alookup (settingsLoop (if s.keyname = "SIM-ID" then
      dictSet equip "sim-id" s.settingvalue else equip) rest) k = _
    rw [ih _ k hk]
    by_cases hs : s.keyname = "SIM-ID"
    · rw [if_pos hs, alookup_dictSet_ne equip "sim-id" k s.settingvalue hk]
    · rw [if_neg hs]

/-! ## Side-table lemmas -/

theorem foldl_lastEntry {α : Type} (t i : String) :
    ∀ (entries : List (IncludedEntry α)) (acc : Option α),
      entries.foldl
          (fun a e => if e.type = t ∧ e.id = i then some e.attributes else a)
          acc =
        orDefault (lastEntry entries t i) acc := by
  intro entries
  induction entries with
  | nil => intro acc; cases acc <;> rfl
  | cons e es ih =>
    intro acc
    show es.foldl _ (if e.type = t ∧ e.id = i then some e.attributes
      else acc) = _
    rw [ih, show lastEntry (e :: es) t i =
      es.foldl (fun a x => if x.type = t ∧ x.id = i then
        some x.attributes else a)
        (if e.type = t ∧ e.id = i then some e.attributes else none)
      from rfl, ih]
    by_cases hq : e.type = t ∧ e.id = i
    · simp only [hq, if_pos]
      cases lastEntry es t i <;> rfl
    · simp only [hq, ite_false]
      cases lastEntry es t i <;> rfl

theorem inclLookup_insertEntries {α : Type} (t i : String) :
    ∀ (entries : List (IncludedEntry α)) (d : InclDict α),
      inclLookup (insertEntries d entries) t i =
        orDefault (lastEntry entries t i) (inclLookup d t i) := by
  intro entries
  induction entries with
  | nil => intro d; rfl
  | cons e es ih =>
    intro d
    show inclLookup (insertEntries (inclInsert d e.type e.id e.attributes)
      es) t i = _
    rw [ih, show lastEntry (e :: es) t i =
      es.foldl (fun a x => if x.type = t ∧ x.id = i then
        some x.attributes else a)
        (if e.type = t ∧ e.id = i then some e.attributes else none)
      from rfl, foldl_lastEntry]
    have hins : inclLookup (inclInsert d e.type e.id e.attributes) t i =
        if e.type = t ∧ e.id = i then some e.attributes
        else inclLookup d t i := rfl
    rw [hins]
    by_cases hq : e.type = t ∧ e.id = i
    · simp only [hq, if_pos]
      cases lastEntry es t i <;> rfl
    · simp only [hq, ite_false]
      cases lastEntry es t i <;> rfl

theorem processIncluded_eq {α : Type} (incl : InclDict α)
    (inc : Option (List (IncludedEntry α))) :
    processIncluded incl inc = insertEntries incl (inc.getD []) := by
  cases inc with
  | none => rfl
  | some es => cases es <;> rfl

theorem insertEntries_append {α : Type} (d : InclDict α)
    (l1 l2 : List (IncludedEntry α)) :
    insertEntries d (l1 ++ l2) = insertEntries (insertEntries d l1) l2 := by
  induction l1 generalizing d with
  | nil => rfl
  | cons e es ih =>
    show insertEntries (inclInsert d e.type e.id e.attributes) (es ++ l2) = _
    rw [ih]
    rfl

/-! ## Page-accumulation lemmas -/

theorem concatData_length {δ α : Type} (server : Nat → Page δ α) :
    ∀ (k s : Nat),
      (concatData server s k).length = sumDataLen server s k := by
  intro k
  induction k with
  | zero => intro s; rfl
  | succ n ih =>
    intro s
    show ((server s).data ++ concatData server (s + 1) n).length = _
    rw [List.length_append, ih]
    rfl

theorem pagesFrom_length : ∀ (k s : Nat), (pagesFrom s k).length = k := by
  intro k
  induction k with
  | zero => intro s; rfl
  | succ n ih =>
    intro s
    show (s :: pagesFrom (s + 1) n).length = n + 1
    rw [List.length_cons, ih]

/-! ## Fetch-loop run lemmas -/

theorem fetchLoop_trace_extends {δ α : Type} (server : Nat → Page δ α) :
    ∀ (fuel : Nat) (fp : FilterParams) (acc : List δ) (incl : InclDict α)
      (trace : List Nat),
      ∃ u, (fetchLoop server fuel fp acc incl trace).2 = trace ++ u := by
  intro fuel
  induction fuel with
  | zero =>
    intro fp acc incl trace
    exact ⟨[], by simp [fetchLoop]⟩
  | succ f ih =>
    intro fp acc incl trace
    cases hpn : getPageNum fp with
    | none => exact ⟨[], by simp [fetchLoop, hpn]⟩
    | some pn =>
      by_cases hst : (server pn).status_ok = false
      · exact ⟨[pn], by simp [fetchLoop, hpn, hst]⟩
      · by_cases hpg : (server pn).pages < pn + 1
        · exact ⟨[pn], by simp [fetchLoop, hpn, hst, hpg]⟩
        · obtain ⟨u, hu⟩ := ih (setPageNum fp (pn + 1))
            (acc ++ (server pn).data)
            (processIncluded incl (server pn).included) (trace ++ [pn])
          refine ⟨pn :: u, ?_⟩
          have hstep : fetchLoop server (f + 1) fp acc incl trace =
              fetchLoop server f (setPageNum fp (pn + 1))
                (acc ++ (server pn).data)
                (processIncluded incl (server pn).included)
                (trace ++ [pn]) := by
            simp [fetchLoop, hpn, hst, hpg]
          rw [hstep, hu, List.append_assoc]
          rfl

theorem fetchLoop_ok_run {δ α : Type} (server : Nat → Page δ α) (n : Nat)
    (hok : ∀ i, 1 ≤ i → i ≤ n → (server i).status_ok = true)
    (hcont : ∀ i, 1 ≤ i → i < n → ¬((server i).pages < i + 1))
    (hstop : (server n).pages < n + 1) :
    ∀ (fuel s : Nat), 1 ≤ s → s ≤ n → n + 1 - s ≤ fuel →
    ∀ (fp : FilterParams) (acc : List δ) (incl : InclDict α)
      (trace : List Nat), getPageNum fp = some s →
      fetchLoop server fuel fp acc incl trace =
        (.ok (acc ++ concatData server s (n + 1 - s))
             (insertEntries incl (allIncluded server s (n + 1 - s)))
             (setPageNum fp (n + 1)),
         trace ++ pagesFrom s (n + 1 - s)) := by
  intro fuel
  induction fuel with
  | zero =>
    intro s hs1 hsn hfuel fp acc incl trace hpn
    exact absurd hfuel (by omega)
  | succ f ih =>
    intro s hs1 hsn hfuel fp acc incl trace hpn
    have hsok : (server s).status_ok = true := hok s hs1 hsn
    have hnf : ¬ (server s).status_ok = false := by simp [hsok]
    by_cases hlast : s = n
    · have hstop' : (server s).pages < s + 1 := by rw [hlast]; exact hstop
      have e1 : n + 1 - s = 1 := by omega
      rw [e1]
      have hstep : fetchLoop server (f + 1) fp acc incl trace =
          (.ok (acc ++ (server s).data)
            (processIncluded incl (server s).included)
            (setPageNum fp (s + 1)), trace ++ [s]) := by
        simp [fetchLoop, hpn, hnf, hstop']
      rw [hstep, show concatData server s 1 =
          (server s).data ++ ([] : List δ) from rfl, List.append_nil,
        show allIncluded server s 1 =
          ((server s).included.getD []) ++ ([] : List (IncludedEntry α))
          from rfl, List.append_nil,
        ← processIncluded_eq, show pagesFrom s 1 = [s] from rfl, hlast]
    · have hlt : s < n := lt_of_le_of_ne hsn hlast
      have hcont' : ¬ (server s).pages < s + 1 := hcont s hs1 hlt
      have hstep : fetchLoop server (f + 1) fp acc incl trace =
          fetchLoop server f (setPageNum fp (s + 1))
            (acc ++ (server s).data)
            (processIncluded incl (server s).included) (trace ++ [s]) := by
        simp [fetchLoop, hpn, hnf, hcont']
      rw [hstep, ih (s + 1) (by omega) (by omega) (by omega) _ _ _ _
        (getPageNum_setPageNum fp (s + 1))]
      have e2 : n + 1 - (s + 1) = n - s := by omega
      have e1 : n + 1 - s = (n - s) + 1 := by omega
      rw [e2, e1, setPageNum_setPageNum,
        show concatData server s ((n - s) + 1) =
          (server s).data ++ concatData server (s + 1) (n - s) from rfl,
        show allIncluded server s ((n - s) + 1) =
          ((server s).included.getD []) ++ allIncluded server (s + 1) (n - s)
          from rfl,
        show pagesFrom s ((n - s) + 1) = s :: pagesFrom (s + 1) (n - s)
          from rfl,
        insertEntries_append, ← processIncluded_eq]
      simp [List.append_assoc]

theorem fetchLoop_err_run {δ α : Type} (server : Nat → Page δ α) (k : Nat)
    (hok : ∀ i, 1 ≤ i → i < k → (server i).status_ok = true)
    (hcont : ∀ i, 1 ≤ i → i < k → ¬((server i).pages < i + 1))
    (hfail : (server k).status_ok = false) :
    ∀ (fuel s : Nat), 1 ≤ s → s ≤ k → k + 1 - s ≤ fuel →
    ∀ (fp : FilterParams) (acc : List δ) (incl : InclDict α)
      (trace : List Nat), getPageNum fp = some s →
      fetchLoop server fuel fp acc incl trace =
        (.raised (.httpError k), trace ++ pagesFrom s (k + 1 - s)) := by
  intro fuel
  induction fuel with
  | zero =>
    intro s hs1 hsk hfuel fp acc incl trace hpn
    exact absurd hfuel (by omega)
  | succ f ih =>
    intro s hs1 hsk hfuel fp acc incl trace hpn
    by_cases hlast : s = k
    · have hfail' : (server s).status_ok = false := by rw [hlast]; exact hfail
      have e1 : k + 1 - s = 1 := by omega
      rw [e1]
      have hstep : fetchLoop server (f + 1) fp acc incl trace =
          (.raised (.httpError s), trace ++ [s]) := by
        simp [fetchLoop, hpn, hfail']
      rw [hstep, show pagesFrom s 1 = [s] from rfl, hlast]
    · have hlt : s < k := lt_of_le_of_ne hsk hlast
      have hsok : (server s).status_ok = true := hok s hs1 hlt
      have hnf : ¬ (server s).status_ok = false := by simp [hsok]
      have hcont' : ¬ (server s).pages < s + 1 := hcont s hs1 hlt
      have hstep : fetchLoop server (f + 1) fp acc incl trace =
          fetchLoop server f (setPageNum fp (s + 1))
            (acc ++ (server s).data)
            (processIncluded incl (server s).included) (trace ++ [s]) := by
        simp [fetchLoop, hpn, hnf, hcont']
      rw [hstep, ih (s + 1) (by omega) (by omega) (by omega) _ _ _ _
        (getPageNum_setPageNum fp (s + 1))]
      have e2 : k + 1 - (s + 1) = k - s := by omega
      have e1 : k + 1 - s = (k - s) + 1 := by omega
      rw [e2, e1,
        show pagesFrom s ((k - s) + 1) = s :: pagesFrom (s + 1) (k - s)
          from rfl]
      simp [List.append_assoc]

theorem fetchLoop_frame {δ α : Type} (server : Nat → Page δ α) :
    ∀ (fuel : Nat) (fp : FilterParams) (acc : List δ) (incl : InclDict α)
      (trace : List Nat) (all : List δ) (idict : InclDict α)
      (fp' : FilterParams) (tr : List Nat),
      fetchLoop server fuel fp acc incl trace = (.ok all idict fp', tr) →
      fp'.map Prod.fst = fp.map Prod.fst ∧
      ∀ k, k ≠ "page[number]" → alookup fp' k = alookup fp k := by
  intro fuel
  induction fuel with
  | zero =>
    intro fp acc incl trace all idict fp' tr h
    exact absurd h (by simp [fetchLoop])
  | succ f ih =>
    intro fp acc incl trace all idict fp' tr h
    cases hpn : getPageNum fp with
    | none =>
      rw [show fetchLoop server (f + 1) fp acc incl trace =
        (.raised .keyError, trace) from by simp [fetchLoop, hpn]] at h
      exact absurd h (by simp)
    | some pn =>
      by_cases hst : (server pn).status_ok = false
      · rw [show fetchLoop server (f + 1) fp acc incl trace =
          (.raised (.httpError pn), trace ++ [pn]) from by
            simp [fetchLoop, hpn, hst]] at h
        exact absurd h (by simp)
      · by_cases hpg : (server pn).pages < pn + 1
        · rw [show fetchLoop server (f + 1) fp acc incl trace =
            (.ok (acc ++ (server pn).data)
              (processIncluded incl (server pn).included)
              (setPageNum fp (pn + 1)), trace ++ [pn]) from by
                simp [fetchLoop, hpn, hst, hpg]] at h
          injection h with h1 h2
          injection h1 with ha hb hc
          rw [← hc]
          exact ⟨keys_setPageNum hpn (pn + 1),
            fun k hk => alookup_setPageNum_ne fp (pn + 1) k hk⟩
        · rw [show fetchLoop server (f + 1) fp acc incl trace =
            fetchLoop server f (setPageNum fp (pn + 1))
              (acc ++ (server pn).data)
              (processIncluded incl (server pn).included)
              (trace ++ [pn]) from by simp [fetchLoop, hpn, hst, hpg]] at h
          obtain ⟨hkeys, hlook⟩ := ih _ _ _ _ _ _ _ _ h
          refine ⟨hkeys.trans (keys_setPageNum hpn (pn + 1)), ?_⟩
          intro k hk
          exact (hlook k hk).trans (alookup_setPageNum_ne fp (pn + 1) k hk)

theorem equipmentFilterparams_page (mns ops invs : List String) :
    getPageNum (equipmentFilterparams mns ops invs) = some 1 := by
  unfold equipmentFilterparams getPageNum
  by_cases h : invs.isEmpty
  · simp [h, alookup]
  · simp only [h, Bool.false_eq_true, if_false, if_neg]
    rw [alookup_dictSet_ne _ "inventory" "page[number]" _ (by decide)]
    simp [alookup]

/-! ## The claims -/

/-- C1: for every sequence of successful page responses (a run fetching
pages 1..n and returning normally), `send_request` returns the
concatenation, in page order, of the per-page `data` lists (whose length
is the sum of the per-page `data` lengths) together with a side table that
maps each (type, id) occurring in any page's `included` list to that
entry's attributes, the last occurrence across pages winning. -/
theorem send_request_data_and_side_table {δ α : Type}
    (server : Nat → Page δ α) (n : Nat) (hn : 1 ≤ n)
    (hok : ∀ i, 1 ≤ i → i ≤ n → (server i).status_ok = true)
    (hcont : ∀ i, 1 ≤ i → i < n → ¬((server i).pages < i + 1))
    (hstop : (server n).pages < n + 1)
    (mode : String) (hmode : (alookup config mode).isNone = false)
    (fp : FilterParams) (hpn : getPageNum fp = some 1)
    (fuel : Nat) (hfuel : n ≤ fuel) :
    send_request server mode fp fuel =
      (.ok (concatData server 1 n)
        (insertEntries [] (allIncluded server 1 n)) (setPageNum fp (n + 1)),
       pagesFrom 1 n) ∧
    (∀ t i, inclLookup (insertEntries ([] : InclDict α)
        (allIncluded server 1 n)) t i =
      lastEntry (allIncluded server 1 n) t i) ∧
    (concatData server 1 n).length = sumDataLen server 1 n := by
  refine ⟨?_, ?_, concatData_length server n 1⟩
  · have hrun := fetchLoop_ok_run server n hok hcont hstop fuel 1
      (by omega) hn (by omega) fp [] [] [] hpn
    have e : n + 1 - 1 = n := by omega
    rw [e] at hrun
    simpa [send_request, hmode] using hrun
  · intro t i
    rw [inclLookup_insertEntries]
    exact orDefault_none_right _

theorem send_request_data_and_side_table_witness :
    send_request serverTwoPages "test" fpDemo 2 =
      (.ok (concatData serverTwoPages 1 2)
        (insertEntries [] (allIncluded serverTwoPages 1 2))
        (setPageNum fpDemo 3), pagesFrom 1 2) :=
  (send_request_data_and_side_table serverTwoPages 2 (by decide)
    (by
      intro i h1 h2
      have h : i = 1 ∨ i = 2 := by omega
      rcases h with rfl | rfl <;> rfl)
    (by
      intro i h1 h2
      have h : i = 1 := by omega
      rw [h]
      decide)
    (by decide) "test" (by decide) fpDemo rfl 2 (by decide)).1

/-- C2: for a server reporting the same total page count `p` on every
response, the fetch loop issues exactly `max 1 p` requests, with the
page-number parameter taking the values 1, 2, ... in order, and the loop
then stops normally; in particular one single request when `p = 0`. -/
theorem send_request_request_trace {δ α : Type} (server : Nat → Page δ α)
    (p : Nat) (hpages : ∀ i, (server i).pages = p)
    (hok : ∀ i, (server i).status_ok = true)
    (mode : String) (hmode : (alookup config mode).isNone = false)
    (fp : FilterParams) (hpn : getPageNum fp = some 1)
    (fuel : Nat) (hfuel : max 1 p ≤ fuel) :
    (send_request server mode fp fuel).2 = pagesFrom 1 (max 1 p) ∧
    (pagesFrom 1 (max 1 p)).length = max 1 p ∧
    (send_request server mode fp fuel).1.isOk = true := by
  have hrun := fetchLoop_ok_run server (max 1 p)
    (fun i _ _ => hok i)
    (fun i h1 h2 => by rw [hpages i]; omega)
    (by rw [hpages (max 1 p)]; omega)
    fuel 1 (by omega) (by omega) (by omega) fp [] [] [] hpn
  have e : max 1 p + 1 - 1 = max 1 p := by omega
  rw [e] at hrun
  have hsr : send_request server mode fp fuel =
      (.ok ([] ++ concatData server 1 (max 1 p))
        (insertEntries [] (allIncluded server 1 (max 1 p)))
        (setPageNum fp (max 1 p + 1)),
       [] ++ pagesFrom 1 (max 1 p)) := by
    simpa [send_request, hmode] using hrun
  refine ⟨?_, pagesFrom_length (max 1 p) 1, ?_⟩
  · rw [hsr]
    simp
  · rw [hsr]
    rfl

theorem send_request_request_trace_witness :
    (send_request serverThreePages "prod" fpDemo 3).2 = [1, 2, 3] := by
  have h := (send_request_request_trace serverThreePages 3 (fun i => rfl)
    (fun i => rfl) "prod" (by decide) fpDemo rfl 3 (by decide)).1
  exact h.trans (by decide)

/-- C3: when some page request answers a non-success HTTP status (the run
reaches failing page k), `send_request` raises instead of returning — no
partial data reaches the caller — and `get_equipment` ends with no output
file created (the CSV file is opened only after a successful fetch). -/
theorem send_request_http_error_aborts
    (server : Nat → Page EquipRecord (List (String × String))) (k : Nat)
    (hk : 1 ≤ k)
    (hok : ∀ i, 1 ≤ i → i < k → (server i).status_ok = true)
    (hcont : ∀ i, 1 ≤ i → i < k → ¬((server i).pages < i + 1))
    (hfail : (server k).status_ok = false)
    (mode : String) (hmode : (alookup config mode).isNone = false)
    (fuel : Nat) (hfuel : k ≤ fuel) :
    (∀ fp, getPageNum fp = some 1 →
      send_request server mode fp fuel =
        (.raised (.httpError k), pagesFrom 1 k)) ∧
    (∀ outfpathname modelnames operatorcodes inventory_states,
      outfpathname ≠ "" → ¬(modelnames = [] ∧ operatorcodes = []) →
      get_equipment server fuel mode outfpathname modelnames operatorcodes
        inventory_states = (.noFile, pagesFrom 1 k)) := by
  have hpart1 : ∀ fp, getPageNum fp = some 1 →
      send_request server mode fp fuel =
        (.raised (.httpError k), pagesFrom 1 k) := by
    intro fp hpn
    have hrun := fetchLoop_err_run server k hok hcont hfail fuel 1
      (by omega) hk (by omega) fp [] [] [] hpn
    have e : k + 1 - 1 = k := by omega
    rw [e] at hrun
    simpa [send_request, hmode] using hrun
  refine ⟨hpart1, ?_⟩
  intro outfpathname modelnames operatorcodes inventory_states houtp hsel
  have h1 := hpart1 (equipmentFilterparams modelnames operatorcodes
    inventory_states)
    (equipmentFilterparams_page modelnames operatorcodes inventory_states)
  simp [get_equipment, houtp, hsel, h1]

theorem send_request_http_error_aborts_witness :
    get_equipment serverFailPage2 5 "test" "out.csv" ["M"] ["O"] [] =
      (.noFile, [1, 2]) := by
  have h := (send_request_http_error_aborts serverFailPage2 2 (by decide)
    (by
      intro i h1 h2
      have h : i = 1 := by omega
      rw [h]
      decide)
    (by
      intro i h1 h2
      have h : i = 1 := by omega
      rw [h]
      decide)
    (by decide) "test" (by decide) 5 (by decide)).2
    "out.csv" ["M"] ["O"] [] (by decide) (by decide)
  exact h.trans (by decide)

/-- C8: a successful `send_request` call mutates the caller-owned filter
params only in the page-number field: every other key keeps the value it
had on entry, and no keys are added or removed. -/
theorem send_request_filterparams_frame {δ α : Type}
    (server : Nat → Page δ α) (mode : String) (fp : FilterParams)
    (fuel : Nat) (all_data : List δ) (idict : InclDict α)
    (fp' : FilterParams) (tr : List Nat)
    (h : send_request server mode fp fuel = (.ok all_data idict fp', tr)) :
    fp'.map Prod.fst = fp.map Prod.fst ∧
    ∀ k, k ≠ "page[number]" → alookup fp' k = alookup fp k := by
  unfold send_request at h
  by_cases hm : (alookup config mode).isNone
  · rw [if_pos hm] at h
    exact absurd h (by simp)
  · rw [if_neg hm] at h
    exact fetchLoop_frame server fuel fp [] [] [] all_data idict fp' tr h

theorem send_request_filterparams_frame_witness :
    (([("modelname", FPVal.str "A"), ("page[number]", FPVal.num 2)] :
        FilterParams).map Prod.fst = fpFrame.map Prod.fst) ∧
    alookup [("modelname", FPVal.str "A"), ("page[number]", FPVal.num 2)]
        "modelname" = alookup fpFrame "modelname" := by
  have h := send_request_filterparams_frame serverOnePage "prod" fpFrame 2
    [] [] [("modelname", FPVal.str "A"), ("page[number]", FPVal.num 2)] [1]
    (by decide)
  exact ⟨h.1, h.2 "modelname" (by decide)⟩

/-! ## Further helper lemmas for the report-level claims -/

theorem fetchLoop_first_request {δ α : Type} (server : Nat → Page δ α)
    (f : Nat) (fp : FilterParams) (pn : Nat)
    (hpn : getPageNum fp = some pn) (acc : List δ) (incl : InclDict α) :
    ∃ u, (fetchLoop server (f + 1) fp acc incl []).2 = pn :: u := by
  by_cases hst : (server pn).status_ok = false
  · exact ⟨[], by simp [fetchLoop, hpn, hst]⟩
  · by_cases hpg : (server pn).pages < pn + 1
    · exact ⟨[], by simp [fetchLoop, hpn, hst, hpg]⟩
    · obtain ⟨u, hu⟩ := fetchLoop_trace_extends server f
        (setPageNum fp (pn + 1)) (acc ++ (server pn).data)
        (processIncluded incl (server pn).included) [pn]
      refine ⟨u, ?_⟩
      rw [show fetchLoop server (f + 1) fp acc incl [] =
        fetchLoop server f (setPageNum fp (pn + 1))
          (acc ++ (server pn).data)
          (processIncluded incl (server pn).included) [pn] from by
            simp [fetchLoop, hpn, hst, hpg], hu]
      rfl

theorem zip_map_fst_self {γ : Type} (g : String → γ) :
    ∀ l : List String, (l.zip (l.map g)).map Prod.fst = l := by
  intro l
  induction l with
  | nil => rfl
  | cons x xs ih =>
    show x :: (xs.zip (xs.map g)).map Prod.fst = x :: xs
    rw [ih]

theorem assembleEquipRow_epoch_lookup
    (incl : InclDict (List (String × String))) (r : EquipRecord) (row : Row)
    (hrow : assembleEquipRow incl r = .ok row) :
    alookup row "operatorcode" =
      (match lastActive r.attributes.equipepochs with
       | some e => some e.operatorcode
       | none => none) ∧
    alookup row "ownercode" =
      (match lastActive r.attributes.equipepochs with
       | some e => some e.ownercode
       | none => none) ∧
    alookup row "inventory" =
      (match lastActive r.attributes.equipepochs with
       | some e => some e.inventory
       | none => none) := by
  unfold assembleEquipRow at hrow
  cases hm : inclLookup incl r.equipmodel.type r.equipmodel.id with
  | none =>
    simp only [hm] at hrow
    exact absurd hrow (by simp)
  | some model =>
    simp only [hm] at hrow
    cases hp : projectKeys model ["category", "manufacturer", "modelname"]
      with
    | error err =>
      simp only [hp] at hrow
      exact absurd hrow (by simp)
    | ok modeldict =>
      simp only [hp] at hrow
      cases hip : joinIps r.attributes.equipips with
      | error err =>
        simp only [hip] at hrow
        exact absurd hrow (by simp)
      | ok ipval =>
        simp only [hip] at hrow
        have hr : row = settingsLoop
            (dictSet (epochLoop (dictUpdate
              [("serialnumber", r.attributes.serialnumber),
               ("sourcetemplate", r.attributes.sourcetemplate),
               ("notes", r.attributes.notes),
               ("createdby", r.attributes.createdby),
               ("datecreated", r.attributes.datecreated),
               ("modifiedby", r.attributes.modifiedby),
               ("datemodified", r.attributes.datemodified)] modeldict)
              r.attributes.equipepochs) "ipv4addresses" ipval)
            r.attributes.equipsettings := by
          have := hrow
          simp at this
          exact this.symm
        have hkeys : modeldict.map Prod.fst =
            ["category", "manufacturer", "modelname"] := projectKeys_keys hp
        have hbase : ∀ k, k ∈ ["operatorcode", "ownercode", "inventory"] →
            alookup (dictUpdate
              [("serialnumber", r.attributes.serialnumber),
               ("sourcetemplate", r.attributes.sourcetemplate),
               ("notes", r.attributes.notes),
               ("createdby", r.attributes.createdby),
               ("datecreated", r.attributes.datecreated),
               ("modifiedby", r.attributes.modifiedby),
               ("datemodified", r.attributes.datemodified)] modeldict) k =
              none := by
          intro k hk
          rw [alookup_dictUpdate, lastBinding_of_not_mem _ _ (by
            rw [hkeys]
            fin_cases hk <;> decide)]
          fin_cases hk <;> simp [alookup, orDefault]
        obtain ⟨e1, e2, e3⟩ := epochLoop_lookup r.attributes.equipepochs
          (dictUpdate
            [("serialnumber", r.attributes.serialnumber),
             ("sourcetemplate", r.attributes.sourcetemplate),
             ("notes", r.attributes.notes),
             ("createdby", r.attributes.createdby),
             ("datecreated", r.attributes.datecreated),
             ("modifiedby", r.attributes.modifiedby),
             ("datemodified", r.attributes.datemodified)] modeldict)
        refine ⟨?_, ?_, ?_⟩ <;>
          rw [hr, settingsLoop_lookup_ne _ _ _ (by decide),
            alookup_dictSet_ne _ _ _ _ (by decide)]
        · rw [e1]
          cases lastActive r.attributes.equipepochs with
          | none => exact hbase "operatorcode" (by decide)
          | some e => rfl
        · rw [e2]
          cases lastActive r.attributes.equipepochs with
          | none => exact hbase "ownercode" (by decide)
          | some e => rfl
        · rw [e3]
          cases lastActive r.attributes.equipepochs with
          | none => exact hbase "inventory" (by decide)
          | some e => rfl

/-! ## The report-level claims -/

theorem get_equipment_trace
    (server : Nat → Page EquipRecord (List (String × String))) (fuel : Nat)
    (mode outfpathname : String) (mns ops invs : List String)
    (houtp : outfpathname ≠ "") (hsel : ¬(mns = [] ∧ ops = []))
    (hmode : (alookup config mode).isNone = false) :
    (get_equipment server fuel mode outfpathname mns ops invs).2 =
      (fetchLoop server fuel (equipmentFilterparams mns ops invs)
        [] [] []).2 := by
  simp only [get_equipment, houtp, hsel, send_request, hmode,
    Bool.false_eq_true, if_false, ite_false]
  cases hR : fetchLoop server fuel (equipmentFilterparams mns ops invs)
    [] [] [] with
  | mk r t =>
    cases r with
    | noneRes => rfl
    | raised e => rfl
    | outOfFuel => rfl
    | ok all_data incl_dict fp =>
      dsimp only
      split <;> rfl

/-- C4 counterexample: called with empty `modelnames` but non-empty
`operatorcodes`, `get_equipment` does not report a validation error and
does not return before the network: it issues the page-1 request (request
trace `[1]`) and proceeds to write output — refuting the claim that one
empty required selector aborts the call before any network request. -/
theorem get_equipment_single_empty_selector_counterexample :
    (get_equipment serverEmptyPage 3 "test" "out.csv" [] ["SCSN-CA"]
      []).2 = [1] ∧
    (get_equipment serverEmptyPage 3 "test" "out.csv" [] ["SCSN-CA"]
      []).1 ≠ ReportOutcome.noFile := by
  constructor
  · rfl
  · decide

/-- C4 (amended): `get_equipment` reports the validation error and returns
before any network request exactly when `modelnames` and `operatorcodes`
are BOTH empty (the code tests `not modelnames and not operatorcodes`);
when at least one of the two selectors is non-empty (and the output path
is given, the mode valid, fuel positive), it proceeds to issue at least
one network request. -/
theorem get_equipment_validation_both_empty
    (server : Nat → Page EquipRecord (List (String × String))) (fuel : Nat)
    (mode outfpathname : String) (inventory_states : List String) :
    get_equipment server fuel mode outfpathname [] [] inventory_states =
      (.noFile, []) ∧
    (∀ modelnames operatorcodes,
      ¬(modelnames = [] ∧ operatorcodes = []) → outfpathname ≠ "" →
      (alookup config mode).isNone = false → 1 ≤ fuel →
      (get_equipment server fuel mode outfpathname modelnames operatorcodes
        inventory_states).2 ≠ []) := by
  constructor
  · by_cases h : outfpathname = "" <;> simp [get_equipment, h]
  · intro mns ops hsel houtp hmode hfuel
    rw [get_equipment_trace server fuel mode outfpathname mns ops
      inventory_states houtp hsel hmode]
    obtain ⟨f, rfl⟩ : ∃ f, fuel = f + 1 := ⟨fuel - 1, by omega⟩
    obtain ⟨u, hu⟩ := fetchLoop_first_request server f
      (equipmentFilterparams mns ops inventory_states) 1
      (equipmentFilterparams_page mns ops inventory_states) [] []
    rw [hu]
    simp

theorem get_equipment_validation_both_empty_witness :
    get_equipment serverEmptyPage 3 "test" "o.csv" [] [] [] =
      (.noFile, []) ∧
    (get_equipment serverEmptyPage 3 "test" "o.csv" ["M"] [] []).2 ≠ [] := by
  have h := get_equipment_validation_both_empty serverEmptyPage 3 "test"
    "o.csv" []
  exact ⟨h.1, h.2 ["M"] [] (by decide) (by decide) (by decide) (by decide)⟩

/-- C5: for every report type and every assembled row set, the written CSV
read back has per row exactly the declared fixed column set of that report
type, regardless of what extra keys the rows carry (extra keys are
silently dropped, missing keys filled with the empty default). -/
theorem report_csv_columns_fixed (rt : ReportType) (rows : List Row) :
    readCSVColumns (writeCSV (reportFieldnames rt) rows) =
      rows.map (fun _ => reportFieldnames rt) := by
  show (rows.map (dictWriterRow (reportFieldnames rt))).map
      (fun row => ((reportFieldnames rt).zip row).map Prod.fst) =
    rows.map (fun _ => reportFieldnames rt)
  rw [List.map_map]
  have hfun : ((fun row => ((reportFieldnames rt).zip row).map Prod.fst) ∘
      dictWriterRow (reportFieldnames rt)) =
      fun _ : Row => reportFieldnames rt := by
    funext row
    exact zip_map_fst_self (fun k => (alookup row k).getD "")
      (reportFieldnames rt)
  rw [hfun]

/-- C6: the sort parameter `get_equipinstall` sends to the fetcher is the
most selective supplied filter: `'lookupcode'` when lookup codes are
supplied, else `'netcode'` when net codes are supplied, else
`'category'`. -/
theorem get_equipinstall_sort_priority
    (categorys netcodes lookupcodes : List String) :
    alookup (equipinstallFilterparams categorys netcodes lookupcodes)
        "sort" =
      some (.str (if lookupcodes.isEmpty then
        (if netcodes.isEmpty then "category" else "netcode")
        else "lookupcode")) := by
  have key : ∀ (pf : FilterParams) (v : FPVal),
      alookup (dictUpdate pf [("sort", v)]) "sort" = some v := by
    intro pf v
    show alookup (dictSet pf "sort" v) "sort" = some v
    exact alookup_dictSet_eq pf "sort" v
  by_cases hn : netcodes.isEmpty <;> by_cases hl : lookupcodes.isEmpty <;>
    simp [equipinstallFilterparams, hn, hl, key]

/-- C7: a primary equipment record whose embedded epoch list holds exactly
one entry with an absent end-date yields an output row carrying that
epoch's operator code, owner code and inventory state (both in the
assembled row and in the corresponding CSV cells). -/
theorem get_equipment_unique_epoch_row
    (incl : InclDict (List (String × String))) (r : EquipRecord)
    (e : EquipEpoch) (row : Row)
    (hfilter : r.attributes.equipepochs.filter
      (fun ee => ee.offdate = none) = [e])
    (hrow : assembleEquipRow incl r = .ok row) :
    alookup row "operatorcode" = some e.operatorcode ∧
    alookup row "ownercode" = some e.ownercode ∧
    alookup row "inventory" = some e.inventory ∧
    (dictWriterRow equipFieldnames row)[4]? = some e.operatorcode ∧
    (dictWriterRow equipFieldnames row)[5]? = some e.ownercode ∧
    (dictWriterRow equipFieldnames row)[6]? = some e.inventory := by
  have hla : lastActive r.attributes.equipepochs = some e :=
    lastActive_of_filter_concat (l := []) (by simpa using hfilter)
  obtain ⟨h1, h2, h3⟩ := assembleEquipRow_epoch_lookup incl r row hrow
  rw [hla] at h1 h2 h3
  have c4 : (dictWriterRow equipFieldnames row)[4]? =
      some ((alookup row "operatorcode").getD "") := rfl
  have c5 : (dictWriterRow equipFieldnames row)[5]? =
      some ((alookup row "ownercode").getD "") := rfl
  have c6 : (dictWriterRow equipFieldnames row)[6]? =
      some ((alookup row "inventory").getD "") := rfl
  rw [h1] at c4
  rw [h2] at c5
  rw [h3] at c6
  exact ⟨h1, h2, h3, c4, c5, c6⟩

theorem get_equipment_unique_epoch_row_witness :
    alookup rowOneEpoch "operatorcode" = some "OP" ∧
    alookup rowOneEpoch "ownercode" = some "OWN" ∧
    alookup rowOneEpoch "inventory" = some "OPERATIONAL" ∧
    (dictWriterRow equipFieldnames rowOneEpoch)[4]? = some "OP" ∧
    (dictWriterRow equipFieldnames rowOneEpoch)[5]? = some "OWN" ∧
    (dictWriterRow equipFieldnames rowOneEpoch)[6]? =
      some "OPERATIONAL" :=
  get_equipment_unique_epoch_row inclDemo recordOneEpoch epochActive
    rowOneEpoch (by decide) (by rfl)

/-- C9: when the embedded epoch list holds several entries with an absent
end-date, the assembled row carries the operator code, owner code and
inventory state of the last such entry in list order; when it holds none,
those keys are absent from the row and the corresponding CSV cells are
written as the empty default `''`. -/
theorem get_equipment_epoch_multiplicity
    (incl : InclDict (List (String × String))) (r : EquipRecord)
    (row : Row) (hrow : assembleEquipRow incl r = .ok row) :
    (∀ l e, r.attributes.equipepochs.filter
        (fun ee => ee.offdate = none) = l ++ [e] →
      alookup row "operatorcode" = some e.operatorcode ∧
      alookup row "ownercode" = some e.ownercode ∧
      alookup row "inventory" = some e.inventory) ∧
    (r.attributes.equipepochs.filter
        (fun ee => ee.offdate = none) = [] →
      alookup row "operatorcode" = none ∧
      alookup row "ownercode" = none ∧
      alookup row "inventory" = none ∧
      (dictWriterRow equipFieldnames row)[4]? = some "" ∧
      (dictWriterRow equipFieldnames row)[5]? = some "" ∧
      (dictWriterRow equipFieldnames row)[6]? = some "") := by
  obtain ⟨h1, h2, h3⟩ := assembleEquipRow_epoch_lookup incl r row hrow
  constructor
  · intro l e hf
    have hla : lastActive r.attributes.equipepochs = some e :=
      lastActive_of_filter_concat hf
    rw [hla] at h1 h2 h3
    exact ⟨h1, h2, h3⟩
  · intro hf
    have hla : lastActive r.attributes.equipepochs = none :=
      lastActive_of_filter_nil hf
    rw [hla] at h1 h2 h3
    have c4 : (dictWriterRow equipFieldnames row)[4]? =
        some ((alookup row "operatorcode").getD "") := rfl
    have c5 : (dictWriterRow equipFieldnames row)[5]? =
        some ((alookup row "ownercode").getD "") := rfl
    have c6 : (dictWriterRow equipFieldnames row)[6]? =
        some ((alookup row "inventory").getD "") := rfl
    rw [h1] at c4
    rw [h2] at c5
    rw [h3] at c6
    exact ⟨h1, h2, h3, c4, c5, c6⟩

theorem get_equipment_epoch_multiplicity_witness :
    (alookup rowTwoActive "operatorcode" = some "A2" ∧
     alookup rowTwoActive "ownercode" = some "B2" ∧
     alookup rowTwoActive "inventory" = some "C2") ∧
    (alookup rowNoActive "operatorcode" = none ∧
     (dictWriterRow equipFieldnames rowNoActive)[4]? = some "" ∧
     (dictWriterRow equipFieldnames rowNoActive)[5]? = some "" ∧
     (dictWriterRow equipFieldnames rowNoActive)[6]? = some "") := by
  have h2a := (get_equipment_epoch_multiplicity inclDemo recordTwoActive
    rowTwoActive (by rfl)).1 [⟨none, "A1", "B1", "C1"⟩]
    ⟨none, "A2", "B2", "C2"⟩ (by decide)
  have h0 := (get_equipment_epoch_multiplicity inclDemo recordNoActive
    rowNoActive (by rfl)).2 (by decide)
  exact ⟨h2a, h0.1, h0.2.2.2.1, h0.2.2.2.2.1, h0.2.2.2.2.2⟩

/-- C10: for a mode that is not a key of `config`, `send_request` issues
no request and returns the bare `None` instead of a pair; unpacking it
raises a `TypeError` before the `all_data is None` guard could run, so
`get_logger_models` (no `try`) raises, while `get_equipment` and
`get_equipinstall` catch the error and return silently with no file. -/
theorem invalid_mode_behavior {δ α : Type}
    (mode : String) (hmode : alookup config mode = none)
    (server : Nat → Page δ α) (fp : FilterParams) (fuel : Nat)
    (lserver : Nat → Page LoggerRecord Row)
    (eserver : Nat → Page EquipRecord (List (String × String)))
    (iserver : Nat → Page EquipinstallRecord (List (String × String)))
    (outfpathname : String) (houtp : outfpathname ≠ "")
    (modelnames operatorcodes inventory_states : List String)
    (hsel : ¬(modelnames = [] ∧ operatorcodes = []))
    (categorys netcodes lookupcodes : List String)
    (hcat : categorys ≠ []) :
    send_request server mode fp fuel = (.noneRes, []) ∧
    get_logger_models lserver fuel mode outfpathname = (.raised, []) ∧
    get_equipment eserver fuel mode outfpathname modelnames operatorcodes
      inventory_states = (.noFile, []) ∧
    get_equipinstall iserver fuel mode outfpathname categorys netcodes
      lookupcodes = (.noFile, []) := by
  have hisnone : (alookup config mode).isNone = true := by simp [hmode]
  have hsr : ∀ {δ' α' : Type} (sv : Nat → Page δ' α') (fp' : FilterParams),
      send_request sv mode fp' fuel = (.noneRes, []) := by
    intro δ' α' sv fp'
    simp [send_request, hisnone]
  refine ⟨hsr server fp, ?_, ?_, ?_⟩
  · simp [get_logger_models, houtp, hsr]
  · simp [get_equipment, houtp, hsel, hsr]
  · simp [get_equipinstall, houtp, hcat, hsr]

theorem invalid_mode_behavior_witness :
    send_request serverOnePage "stage" fpDemo 3 = (.noneRes, []) ∧
    get_logger_models loggerServerDemo 3 "stage" "o.csv" = (.raised, []) ∧
    get_equipment serverEmptyPage 3 "stage" "o.csv" ["M"] ["O"] [] =
      (.noFile, []) ∧
    get_equipinstall equipinstallServerDemo 3 "stage" "o.csv" ["LOGGER"]
      [] [] = (.noFile, []) :=
  invalid_mode_behavior "stage" (by decide) serverOnePage fpDemo 3
    loggerServerDemo serverEmptyPage equipinstallServerDemo "o.csv"
    (by decide) ["M"] ["O"] [] (by decide) ["LOGGER"] [] [] (by decide)
